import Mathlib

/-!
Verification of the Python layer of the ODL/RL CUDA space package.

This file shallowly embeds the Python-side code of
`src/odl/util/normalize.py`, `src/odl/space/cuda.py` and
`src/RL/space/cuda.py` as executable Lean definitions, and proves or
refutes the specified properties about it.  The native CUDA extension
(`odlpp.odlpp_cuda` / `RLcpp.PyCuda`) is opaque at the Python layer, so
calls into it are modelled as observable events (which entry point gets
invoked with which arguments), exactly as visible from the Python code.
-/

namespace ODL

/-- Python exceptions raised at this layer, tagged with their message.
Messages formatted by the original code (`'...'.format(...)`) are modelled
as fixed representative strings. -/
inductive PyErr
  | typeError (msg : String)
  | valueError (msg : String)
  | indexError (msg : String)
deriving DecidableEq, Repr

/-! ## `odl.util.normalize.normalized_index_expression`

A single index-expression entry is an integer, a `slice` object (with
optional start/stop/step, `slice(None)` being the full slice), `Ellipsis`,
or `None` (a new-axis request). -/

/-- One entry of a Python index expression. -/
inductive Idx
  | int (i : Int)
  | slice (start stop step : Option Int)
  | ellipsis
  | noneIdx
deriving DecidableEq, Repr

/-- The argument `indices` of `normalized_index_expression`: either a bare
entry or a sequence (list/tuple) of entries. -/
inductive IdxExpr
  | single (e : Idx)
  | ofList (l : List Idx)
deriving DecidableEq, Repr

/-- Lines 219-224 of `normalize.py`: a scalar (integer) argument becomes
`[indices, Ellipsis]`, a bare slice or Ellipsis becomes `[indices]`, and a
sequence is turned into a list.  A bare `None` is none of these, and
`list(None)` raises `TypeError` (not iterable). -/
def initialList : IdxExpr → Except PyErr (List Idx)
  | .single (.int i) => .ok [.int i, .ellipsis]
  | .single (.slice a b c) => .ok [.slice a b c]
  | .single .ellipsis => .ok [.ellipsis]
  | .single .noneIdx => .error (.typeError "object is not iterable")
  | .ofList l => .ok l

/-- Number of `Ellipsis` entries, `indices.count(Ellipsis)`. -/
def countEllipsis : List Idx → Nat
  | [] => 0
  | .ellipsis :: r => countEllipsis r + 1
  | .int _ :: r => countEllipsis r
  | .slice _ _ _ :: r => countEllipsis r
  | .noneIdx :: r => countEllipsis r

/-- Lines 225-226: `if len(indices) < ndim and Ellipsis not in indices:
indices.append(Ellipsis)`. -/
def appendEllipsisIfNeeded (l : List Idx) (ndim : Nat) : List Idx :=
  if l.length < ndim ∧ Idx.ellipsis ∉ l then l ++ [.ellipsis] else l

/-- `indices[:eidx] + [slice(None)] * extra_dims + indices[eidx + 1:]`
where `eidx = indices.index(Ellipsis)` is the position of the first
`Ellipsis`: splice `extra` full slices in place of the first `Ellipsis`. -/
def spliceAtFirstEllipsis : List Idx → Nat → List Idx
  | [], _ => []
  | .ellipsis :: rest, extra => List.replicate extra (Idx.slice none none none) ++ rest
  | e :: rest, extra => e :: spliceAtFirstEllipsis rest extra

/-- Lines 229-236: if an `Ellipsis` is present, reject more than one, else
replace it by `extra_dims = ndim - len(indices) + 1` full slices (a
negative `extra_dims` multiplies the list to empty, modelled by
`Int.toNat`). -/
def expandEllipsis (l : List Idx) (ndim : Nat) : Except PyErr (List Idx) :=
  if Idx.ellipsis ∈ l then
    if 1 < countEllipsis l then
      .error (.valueError "cannot use more than one Ellipsis.")
    else
      .ok (spliceAtFirstEllipsis l (((ndim : Int) - l.length + 1).toNat))
  else .ok l

/-- Lines 238-249: for each scalar (integer) entry paired with its axis
size, add `n` once if negative, raise `IndexError` if the result is still
`>= n`, and if `int_to_slice` replace the entry by `slice(idx, idx + 1)`
built from the wrapped value (otherwise the original entry is kept
unchanged — the wrap is local to the check).  Entries beyond `shape` are
left untouched (`zip` truncates). -/
def scalarPass : List Idx → List Nat → Bool → Except PyErr (List Idx)
  | [], _, _ => .ok []
  | e :: rest, [], _ => .ok (e :: rest)
  | .int i :: rest, n :: ns, its =>
    let w : Int := if i < 0 then i + n else i
    if (n : Int) ≤ w then
      .error (.indexError "Index is out of bounds for axis with this size.")
    else
      match scalarPass rest ns its with
      | .error e => .error e
      | .ok r => .ok ((if its then Idx.slice (some w) (some (w + 1)) none else .int i) :: r)
  | .slice a b c :: rest, _n :: ns, its =>
    match scalarPass rest ns its with
    | .error e => .error e
    | .ok r => .ok (.slice a b c :: r)
  | .ellipsis :: rest, _n :: ns, its =>
    match scalarPass rest ns its with
    | .error e => .error e
    | .ok r => .ok (.ellipsis :: r)
  | .noneIdx :: rest, _n :: ns, its =>
    match scalarPass rest ns its with
    | .error e => .error e
    | .ok r => .ok (.noneIdx :: r)

/-- Lines 252-254: `any(s.start == s.stop and s.start is not None or
s.start == n for s, n in zip(indices, shape) if isinstance(s, slice))`. -/
def emptySliceBad (l : List Idx) (shape : List Nat) : Bool :=
  (l.zip shape).any fun p =>
    match p.1 with
    | .slice a b _ => (a == b && a.isSome) || a == some (p.2 : Int)
    | _ => false

/-- Lines 251-262: the final error checks, in source order (empty slices,
then `None` entries, then too many indices), and the `tuple(indices)`
return. -/
def finalChecks (l : List Idx) (shape : List Nat) : Except PyErr (List Idx) :=
  if emptySliceBad l shape then
    .error (.valueError "Slices with empty axes not allowed.")
  else if Idx.noneIdx ∈ l then
    .error (.valueError "creating new axes is not supported.")
  else if shape.length < l.length then
    .error (.indexError "too may indices")
  else .ok l

/-- `normalized_index_expression(indices, shape, int_to_slice)`
(`normalize.py` lines 216-262), composed from the stages above. -/
def normalized_index_expression (indices : IdxExpr) (shape : List Nat)
    (int_to_slice : Bool) : Except PyErr (List Idx) :=
  match initialList indices with
  | .error e => .error e
  | .ok l0 =>
    match expandEllipsis (appendEllipsisIfNeeded l0 shape.length) shape.length with
    | .error e => .error e
    | .ok l2 =>
      match scalarPass l2 shape int_to_slice with
      | .error e => .error e
      | .ok l3 => finalChecks l3 shape

/-- Number of indices a Python slice selects on an axis of size `n`
(CPython `PySlice_AdjustIndices` semantics; `step = none` means 1;
`step = 0` is invalid in Python and yields 0 here). -/
def sliceNumElems (start stop step : Option Int) (n : Nat) : Nat :=
  let st := step.getD 1
  if st = 0 then 0
  else if 0 < st then
    let lo := match start with
      | none => (0 : Int)
      | some s => if s < 0 then max (s + n) 0 else min s n
    let hi := match stop with
      | none => (n : Int)
      | some s => if s < 0 then max (s + n) 0 else min s n
    if hi ≤ lo then 0 else (((hi - lo) + st - 1) / st).toNat
  else
    let lo := match start with
      | none => (n : Int) - 1
      | some s => if s < 0 then max (s + n) (-1) else min s ((n : Int) - 1)
    let hi := match stop with
      | none => (-1 : Int)
      | some s => if s < 0 then max (s + n) (-1) else min s ((n : Int) - 1)
    if lo ≤ hi then 0 else (((lo - hi) + (-st) - 1) / (-st)).toNat

/-! ## `odl.util.normalize.normalized_scalar_param_list`

With numpy >= 1.10 the function takes the `np.broadcast_to` path
(lines 114-117): `param = np.array(param, dtype=object, copy=True,
ndmin=1)` followed by `list(np.broadcast_to(param, (length,)))`.
Elements are modelled as `Option V` with `none` standing for Python
`None`; the parameter is a scalar or a flat sequence of such elements
(nested sequences, which numpy would turn into multi-dimensional arrays,
are outside the modelled domain). -/

/-- A Python value that is either a single (scalar) parameter or a
sequence of parameters. -/
inductive ScalarOrSeq (α : Type)
  | scalar (a : α)
  | seq (l : List α)
deriving DecidableEq, Repr

/-- `np.array(param, dtype=object, copy=True, ndmin=1)`: a scalar becomes
a one-element array, a flat sequence keeps its elements. -/
def ndmin1 : ScalarOrSeq α → List α
  | .scalar a => [a]
  | .seq l => l

/-- `np.broadcast_to(arr, (length,))` for a 1-d array: succeeds iff the
array already has the target length or has length 1 (then its element is
repeated); otherwise numpy raises a `ValueError`. -/
def broadcast_to (l : List α) (length : Nat) : Except PyErr (List α) :=
  if l.length = length then .ok l
  else
    match l with
    | [a] => .ok (List.replicate length a)
    | _ => .error (.valueError "cannot broadcast array to the given shape")

/-- `normalized_scalar_param_list(param, length, param_conv, keep_none)`
(`normalize.py` lines 110-149): validate `length`, broadcast, re-check the
length, then apply `param_conv` to each element except `None` elements
when `keep_none` is set. -/
def normalized_scalar_param_list (param : ScalarOrSeq (Option V)) (length : Int)
    (param_conv : Option (Option V → Option V)) (keep_none : Bool) :
    Except PyErr (List (Option V)) :=
  if length ≤ 0 then .error (.valueError "length must be positive")
  else
    match broadcast_to (ndmin1 param) length.toNat with
    | .error e => .error e
    | .ok out_list =>
      if out_list.length ≠ length.toNat then
        .error (.valueError "sequence param has wrong length")
      else
        match param_conv with
        | none => .ok out_list
        | some f => .ok (out_list.map fun p => if p.isNone && keep_none then p else f p)

/-! ## `odl.space.cuda` and `RL.space.cuda`

The native extension (`odlpp.odlpp_cuda`, `RLcpp.PyCuda`) is opaque; the
Python layer's observable behaviour towards it is which entry point gets
called with which arguments.  Spaces and vectors are modelled by their
Python-side fields. -/

/-- The numpy dtypes that can be passed to `CudaFn.__init__`.  The
argument goes through `np.dtype(...)`, so aliases collapse
(`np.dtype(np.float)` is `float64`, `np.dtype(np.int)` is `int64` on a
64-bit platform, handled by `_get_int_type`); `float16` is a
representative valid numpy dtype outside the `CudaFn.dtypes` table. -/
inductive NpDtype
  | float32 | float64
  | int8 | int16 | int32 | int64
  | uint8 | uint16 | uint32 | uint64
  | float16
deriving DecidableEq, Repr

/-- The native vector classes of `odlpp.odlpp_cuda` appearing as values of
the `CudaFn.dtypes` table. -/
inductive CudaVectorImpl
  | cudaVectorFloat32 | cudaVectorFloat64
  | cudaVectorInt8 | cudaVectorInt16 | cudaVectorInt32 | cudaVectorInt64
  | cudaVectorUInt8 | cudaVectorUInt16 | cudaVectorUInt32 | cudaVectorUInt64
deriving DecidableEq, Repr

/-- The class-level `CudaFn.dtypes` lookup table (`cuda.py` lines 58-69):
dtype to native vector class; `.get` yields `None` for unsupported
dtypes. -/
def dtypes : NpDtype → Option CudaVectorImpl
  | .float32 => some .cudaVectorFloat32
  | .float64 => some .cudaVectorFloat64
  | .int8 => some .cudaVectorInt8
  | .int16 => some .cudaVectorInt16
  | .int32 => some .cudaVectorInt32
  | .int64 => some .cudaVectorInt64
  | .uint8 => some .cudaVectorUInt8
  | .uint16 => some .cudaVectorUInt16
  | .uint32 => some .cudaVectorUInt32
  | .uint64 => some .cudaVectorUInt64
  | .float16 => none

/-- The concrete Python class of a space object: `CudaFn`, or its
subclass `CudaRn` (fixed to `float32`).  `type(self) == type(other)`
compares these tags. -/
inductive SpaceClass
  | cudaFnC
  | cudaRnC
deriving DecidableEq, Repr

/-- The `dim` argument of `CudaFn.__init__`: either a Python `Integral`
with a value, or any non-`Integral` object (float, string, ...);
`isinstance(dim, Integral)` distinguishes the two. -/
inductive PyDim
  | pyInt (n : Int)
  | nonIntegral
deriving DecidableEq, Repr

/-- A `CudaFn`/`CudaRn` space object after successful construction: its
Python-side fields `_dim`, `_dtype`, `_vector_impl` plus its concrete
class.  (`_field` is always `RealNumbers()` and carries no data.) -/
structure CudaFn where
  cls : SpaceClass
  dim : Int
  dtype : NpDtype
  vector_impl : CudaVectorImpl
deriving DecidableEq, Repr

/-- `CudaFn.__init__(dim, dtype)` (`cuda.py` lines 72-96): reject a
non-`Integral` or non-positive `dim` with `TypeError`, look the dtype up
in `dtypes` and reject a missing entry with `TypeError`; otherwise store
the fields.  The body performs no call into the native extension (the
`dtypes` table is built once at class-creation time). -/
def cudaFn_init (cls : SpaceClass) (dim : PyDim) (dtype : NpDtype) :
    Except PyErr CudaFn :=
  match dim with
  | .nonIntegral => .error (.typeError "dim has to be a positive integer")
  | .pyInt n =>
    if n < 1 then .error (.typeError "dim has to be a positive integer")
    else
      match dtypes dtype with
      | none => .error (.typeError "dtype must be a valid CudaFn.dtype")
      | some impl => .ok ⟨cls, n, dtype, impl⟩

/-- `CudaRn.__init__(dim)` (`cuda.py` lines 519-528): delegates to
`CudaFn.__init__(dim, np.float32)`; the resulting object's class is
`CudaRn`. -/
def cudaRn_init (dim : PyDim) : Except PyErr CudaFn :=
  cudaFn_init .cudaRnC dim .float32

/-- `CudaFn.equals(other)` (`cuda.py` lines 251-293) restricted to space
arguments: `type(self) == type(other) and self.dim == other.dim and
self._dtype == other._dtype`. -/
def equals (s o : CudaFn) : Bool :=
  s.cls == o.cls && s.dim == o.dim && s.dtype == o.dtype

/-- What `RL.space.cuda.CudaRN.__init__(n)` (`RL/space/cuda.py` lines
44-47) does: it performs no validation whatsoever; it stores `n` and
immediately calls the native constructor `RLcpp.PyCuda.CudaRNImpl(n)`
with the raw argument. -/
inductive RNInitOutcome
  | pyValidationError (e : PyErr)
  | nativeConstruct (arg : PyDim)
deriving DecidableEq, Repr

/-- `CudaRN.__init__`: always a direct native construction, never a
Python-layer validation error. -/
def cudaRN_init (n : PyDim) : RNInitOutcome := .nativeConstruct n

/-- A native vector handle as seen from Python: its native class and its
size. -/
structure CudaHandle where
  impl : CudaVectorImpl
  size : Int
deriving DecidableEq, Repr

/-- Outcome of executing a Python `__init__` body: either the body raises,
or it runs to completion returning a value (`none` models the implicit
`return None`).  Returning a non-`None` value from `__init__` does not
raise inside the body; the interpreter's constructor protocol later
complains, but the validation error itself is never raised. -/
inductive PyInitOutcome (α : Type)
  | raised (e : PyErr)
  | returned (value : Option PyErr) (self : α)
deriving DecidableEq, Repr

/-- A `CudaFn.Vector` object during and after `__init__`: the space stored by
`super().__init__(space)` and the `_data` field, which is only assigned
when the isinstance check passes. -/
structure VectorState where
  space : CudaFn
  data : Option CudaHandle
deriving DecidableEq, Repr

/-- `CudaFn.Vector.__init__(space, data)` (`cuda.py` lines 313-331): after
`super().__init__(space)`, if `data` is not an instance of
`space._vector_impl` the code executes `return TypeError(errfmt(...))` —
it RETURNS the exception object instead of raising it, skipping the
assignment `self._data = data`; otherwise `_data` is assigned and `None`
is returned. -/
def vector_init (space : CudaFn) (data : CudaHandle) : PyInitOutcome VectorState :=
  if data.impl ≠ space.vector_impl then
    .returned (some (.typeError "data must be a CudaFnVectorImpl instance"))
      ⟨space, none⟩
  else
    .returned none ⟨space, some data⟩

/-- The argument classes distinguished by `RL.space.cuda.CudaRN.Vector.__init__`
(`RL/space/cuda.py` lines 126-137): a native `CudaRNVectorImpl` handle, a
numpy array, a Python list, or any other object (e.g. a handle of some
other native type). -/
inductive RLVecArg
  | cudaImpl (h : Int)
  | ndarray (vals : List Int)
  | pylist (vals : List Int)
  | otherObj
deriving DecidableEq, Repr

/-- What `CudaRN.Vector.__init__` does with its first argument. -/
inductive RLVecInitEffect
  | useHandle (h : Int)
  | emptyThenSetSlice (vals : List Int)
  | nativeConstructFromArgs
deriving DecidableEq, Repr

/-- `CudaRN.Vector.__init__(space, *args)`: a `CudaRNVectorImpl` is stored
directly, an ndarray or list is copied into a fresh empty native vector,
and ANY other object is passed straight to the native constructor
`RLcpp.PyCuda.CudaRNVectorImpl(*args)` — there is no Python-layer type
validation. -/
def rl_vector_init : RLVecArg → RLVecInitEffect
  | .cudaImpl h => .useHandle h
  | .ndarray vals => .emptyThenSetSlice vals
  | .pylist vals => .emptyThenSetSlice vals
  | .otherObj => .nativeConstructFromArgs

/-- Entry points of the native extension used by the free elementwise
operations and reductions. -/
inductive NativeEntry
  | absE | signE | addScalarE | maxVectorScalarE | maxVectorVectorE | sumE
deriving DecidableEq, Repr

/-- A call into the native extension: entry point, vector-handle
arguments, scalar arguments. -/
structure NativeCall where
  entry : NativeEntry
  handleArgs : List Int
  scalarArgs : List Int
deriving DecidableEq, Repr

/-- The ODL module-level `sum(inp)` (`cuda.py` lines 649-650):
`return cuda.sum(inp.data)` — one call to the native `sum` reduction on
the vector's handle, whose scalar result is returned. -/
def odl_sum (inpHandle : Int) : NativeCall :=
  ⟨.sumE, [inpHandle], []⟩

/-- The body of the lambda returned by the RL `CudaRN.sum` property
(`RL/space/cuda.py` lines 119-123):
`lambda input, output: RLcpp.PyCuda.abs(input.impl)` — it invokes the
native `abs` entry point, with a single handle argument. -/
def cudaRN_sum (inputHandle : Int) : NativeCall :=
  ⟨.absE, [inputHandle], []⟩

/-- Dispatch of `CudaFn.element(inp, data_ptr)` (`cuda.py` lines 98-149). -/
inductive ElementOutcome
  | newVector (h : CudaHandle)
  | fromPointer (h : CudaHandle) (ptr : Int)
  | copyFromArray (h : CudaHandle) (vals : List Int)
  | raisedTypeError
deriving DecidableEq, Repr

/-- `CudaFn.element`: with neither argument, wrap a fresh native buffer
`self._vector_impl(self.dim)`; with only `data_ptr`, wrap
`self._vector_impl.from_pointer(data_ptr, self.dim)`; with only `inp`,
create an empty element and assign `elem[:] = inp`; with both, raise
`TypeError` before anything is constructed. -/
def element (s : CudaFn) (inp : Option (List Int)) (data_ptr : Option Int) :
    ElementOutcome :=
  match inp, data_ptr with
  | none, none => .newVector ⟨s.vector_impl, s.dim⟩
  | none, some p => .fromPointer ⟨s.vector_impl, s.dim⟩ p
  | some v, none => .copyFromArray ⟨s.vector_impl, s.dim⟩ v
  | some _, some _ => .raisedTypeError

/-- `CudaFn.Vector.__len__` (`cuda.py` lines 419-421): returns
`self.space.dim`. -/
def vector_len (v : VectorState) : Int := v.space.dim

/-! ## Helper lemmas about the index-normalization stages -/

theorem countEllipsis_append (a b : List Idx) :
    countEllipsis (a ++ b) = countEllipsis a + countEllipsis b := by
  induction a with
  | nil => simp [countEllipsis]
  | cons e r ih =>
    cases e with
    | ellipsis => simp [countEllipsis, ih]; omega
    | int i => simp [countEllipsis, ih]
    | slice a b c => simp [countEllipsis, ih]
    | noneIdx => simp [countEllipsis, ih]

theorem countEllipsis_eq_zero (l : List Idx) :
    countEllipsis l = 0 ↔ Idx.ellipsis ∉ l := by
  induction l with
  | nil => simp [countEllipsis]
  | cons e r ih => cases e <;> simp [countEllipsis, ih]

theorem countEllipsis_pos_length {l : List Idx} (h : 0 < countEllipsis l) :
    0 < l.length := by
  cases l with
  | nil => simp [countEllipsis] at h
  | cons e r => simp

theorem countEllipsis_replicate (k : Nat) :
    countEllipsis (List.replicate k (Idx.slice none none none)) = 0 := by
  induction k with
  | zero => rfl
  | succ m ih => simpa [List.replicate, countEllipsis] using ih

theorem splice_append (pre post : List Idx) (k : Nat)
    (h : Idx.ellipsis ∉ pre) :
    spliceAtFirstEllipsis (pre ++ Idx.ellipsis :: post) k =
      pre ++ List.replicate k (Idx.slice none none none) ++ post := by
  induction pre with
  | nil => simp [spliceAtFirstEllipsis]
  | cons e r ih =>
    simp only [List.mem_cons, not_or] at h
    cases e with
    | ellipsis => exact absurd rfl h.1
    | int i => simpa [spliceAtFirstEllipsis] using ih h.2
    | slice a b c => simpa [spliceAtFirstEllipsis] using ih h.2
    | noneIdx => simpa [spliceAtFirstEllipsis] using ih h.2

theorem splice_count {l : List Idx} (k : Nat) (h : 0 < countEllipsis l) :
    countEllipsis (spliceAtFirstEllipsis l k) = countEllipsis l - 1 := by
  induction l with
  | nil => simp [countEllipsis] at h
  | cons e r ih =>
    cases e with
    | ellipsis =>
      simp [spliceAtFirstEllipsis, countEllipsis_append, countEllipsis_replicate,
        countEllipsis]
    | int i =>
      simp only [countEllipsis] at h ⊢
      simp [spliceAtFirstEllipsis, countEllipsis, ih h]
    | slice a b c =>
      simp only [countEllipsis] at h ⊢
      simp [spliceAtFirstEllipsis, countEllipsis, ih h]
    | noneIdx =>
      simp only [countEllipsis] at h ⊢
      simp [spliceAtFirstEllipsis, countEllipsis, ih h]

theorem splice_length {l : List Idx} (k : Nat) (h : 0 < countEllipsis l) :
    (spliceAtFirstEllipsis l k).length = l.length - 1 + k := by
  induction l with
  | nil => simp [countEllipsis] at h
  | cons e r ih =>
    cases e with
    | ellipsis =>
      simp [spliceAtFirstEllipsis]
      omega
    | int i =>
      simp only [countEllipsis] at h
      have hr := countEllipsis_pos_length h
      simp only [spliceAtFirstEllipsis, List.length_cons, ih h]
      omega
    | slice a b c =>
      simp only [countEllipsis] at h
      have hr := countEllipsis_pos_length h
      simp only [spliceAtFirstEllipsis, List.length_cons, ih h]
      omega
    | noneIdx =>
      simp only [countEllipsis] at h
      have hr := countEllipsis_pos_length h
      simp only [spliceAtFirstEllipsis, List.length_cons, ih h]
      omega

theorem scalarPass_ok_length :
    ∀ (l : List Idx) (shape : List Nat) (its : Bool) (r : List Idx),
      scalarPass l shape its = .ok r → r.length = l.length := by
  intro l
  induction l with
  | nil =>
    intro shape its r h
    simp only [scalarPass] at h
    cases h
    rfl
  | cons e rest ih =>
    intro shape its r h
    cases shape with
    | nil =>
      simp only [scalarPass] at h
      cases h
      rfl
    | cons n ns =>
      cases e with
      | int i =>
        simp only [scalarPass] at h
        set w : Int := if i < 0 then i + (n : Int) else i with hw
        split at h
        · cases h
        · cases hrec : scalarPass rest ns its with
          | error e2 => rw [hrec] at h; cases h
          | ok r2 =>
            rw [hrec] at h
            cases h
            simp [ih ns its r2 hrec]
      | slice a b c =>
        simp only [scalarPass] at h
        cases hrec : scalarPass rest ns its with
        | error e2 => rw [hrec] at h; cases h
        | ok r2 =>
          rw [hrec] at h
          cases h
          simp [ih ns its r2 hrec]
      | ellipsis =>
        simp only [scalarPass] at h
        cases hrec : scalarPass rest ns its with
        | error e2 => rw [hrec] at h; cases h
        | ok r2 =>
          rw [hrec] at h
          cases h
          simp [ih ns its r2 hrec]
      | noneIdx =>
        simp only [scalarPass] at h
        cases hrec : scalarPass rest ns its with
        | error e2 => rw [hrec] at h; cases h
        | ok r2 =>
          rw [hrec] at h
          cases h
          simp [ih ns its r2 hrec]

theorem scalarPass_ok_mem :
    ∀ (l : List Idx) (shape : List Nat) (its : Bool) (r : List Idx),
      scalarPass l shape its = .ok r →
      ∀ x ∈ r, x ∈ l ∨ ∃ w : Int, x = Idx.slice (some w) (some (w + 1)) none := by
  intro l
  induction l with
  | nil =>
    intro shape its r h x hx
    simp only [scalarPass] at h
    cases h
    simp at hx
  | cons e rest ih =>
    intro shape its r h x hx
    cases shape with
    | nil =>
      simp only [scalarPass] at h
      cases h
      exact .inl hx
    | cons n ns =>
      cases e with
      | int i =>
        simp only [scalarPass] at h
        set w : Int := if i < 0 then i + (n : Int) else i with hw
        split at h
        · cases h
        · cases hrec : scalarPass rest ns its with
          | error e2 => rw [hrec] at h; cases h
          | ok r2 =>
            rw [hrec] at h
            cases h
            rcases List.mem_cons.mp hx with hx1 | hx2
            · subst hx1
              by_cases hits : its
              · right
                exact ⟨w, by simp [hits]⟩
              · left
                simp [hits]
            · rcases ih ns its r2 hrec x hx2 with hm | hw
              · exact .inl (List.mem_cons_of_mem _ hm)
              · exact .inr hw
      | slice a b c =>
        simp only [scalarPass] at h
        cases hrec : scalarPass rest ns its with
        | error e2 => rw [hrec] at h; cases h
        | ok r2 =>
          rw [hrec] at h
          cases h
          rcases List.mem_cons.mp hx with hx1 | hx2
          · subst hx1; exact .inl (List.mem_cons_self _ _)
          · rcases ih ns its r2 hrec x hx2 with hm | hw
            · exact .inl (List.mem_cons_of_mem _ hm)
            · exact .inr hw
      | ellipsis =>
        simp only [scalarPass] at h
        cases hrec : scalarPass rest ns its with
        | error e2 => rw [hrec] at h; cases h
        | ok r2 =>
          rw [hrec] at h
          cases h
          rcases List.mem_cons.mp hx with hx1 | hx2
          · subst hx1; exact .inl (List.mem_cons_self _ _)
          · rcases ih ns its r2 hrec x hx2 with hm | hw
            · exact .inl (List.mem_cons_of_mem _ hm)
            · exact .inr hw
      | noneIdx =>
        simp only [scalarPass] at h
        cases hrec : scalarPass rest ns its with
        | error e2 => rw [hrec] at h; cases h
        | ok r2 =>
          rw [hrec] at h
          cases h
          rcases List.mem_cons.mp hx with hx1 | hx2
          · subst hx1; exact .inl (List.mem_cons_self _ _)
          · rcases ih ns its r2 hrec x hx2 with hm | hw
            · exact .inl (List.mem_cons_of_mem _ hm)
            · exact .inr hw

theorem expandEllipsis_ok_count {l : List Idx} {ndim : Nat} {r : List Idx}
    (h : expandEllipsis l ndim = .ok r) : countEllipsis r = 0 := by
  unfold expandEllipsis at h
  split at h
  · rename_i hmem
    split at h
    · cases h
    · rename_i hcnt
      cases h
      have hpos : 0 < countEllipsis l := by
        rcases Nat.eq_zero_or_pos (countEllipsis l) with h0 | hp
        · exact absurd hmem ((countEllipsis_eq_zero l).mp h0)
        · exact hp
      rw [splice_count _ hpos]
      omega
  · rename_i hmem
    cases h
    exact (countEllipsis_eq_zero _).mpr hmem

theorem expand_append_ok_length {l : List Idx} {ndim : Nat} {r : List Idx}
    (h : expandEllipsis (appendEllipsisIfNeeded l ndim) ndim = .ok r) :
    ndim ≤ r.length := by
  set l1 := appendEllipsisIfNeeded l ndim with hl1
  unfold expandEllipsis at h
  split at h
  · rename_i hmem
    split at h
    · cases h
    · rename_i hcnt
      cases h
      have hpos : 0 < countEllipsis l1 := by
        rcases Nat.eq_zero_or_pos (countEllipsis l1) with h0 | hp
        · exact absurd hmem ((countEllipsis_eq_zero l1).mp h0)
        · exact hp
      rw [splice_length _ hpos]
      have hlen : 0 < l1.length := countEllipsis_pos_length hpos
      omega
  · rename_i hmem
    injection h with h2
    subst h2
    unfold appendEllipsisIfNeeded at hl1
    by_cases hc : l.length < ndim ∧ Idx.ellipsis ∉ l
    · rw [if_pos hc] at hl1
      exact absurd (by rw [hl1]; simp) hmem
    · rw [if_neg hc] at hl1
      rw [hl1] at hmem ⊢
      rcases not_and_or.mp hc with hlt | hmem2
      · omega
      · exact absurd hmem (by simpa using hmem2)

theorem scalarPass_single_int (i : Int) (n : Nat) (its : Bool) :
    scalarPass [Idx.int i] [n] its =
      (if (n : Int) ≤ (if i < 0 then i + (n : Int) else i) then
         .error (.indexError "Index is out of bounds for axis with this size.")
       else
         .ok [if its then
                Idx.slice (some (if i < 0 then i + (n : Int) else i))
                  (some ((if i < 0 then i + (n : Int) else i) + 1)) none
              else Idx.int i]) := by
  simp only [scalarPass]

theorem finalChecks_ok {l : List Idx} {shape : List Nat} {r : List Idx}
    (h : finalChecks l shape = .ok r) :
    r = l ∧ emptySliceBad l shape = false ∧ Idx.noneIdx ∉ l ∧
      l.length ≤ shape.length := by
  unfold finalChecks at h
  split at h
  · cases h
  · rename_i h1
    split at h
    · cases h
    · rename_i h2
      split at h
      · cases h
      · rename_i h3
        cases h
        exact ⟨rfl, by simpa using h1, h2, by omega⟩

/-! ## Claim theorems -/

/-- C9: for every index expression and every shape, whenever
`normalized_index_expression` returns without raising, the returned value
is a tuple of length exactly `len(shape)`, with each entry an integer or
a slice. -/
theorem C9_normalized_result_invariant (expr : IdxExpr) (shape : List Nat)
    (b : Bool) (r : List Idx)
    (h : normalized_index_expression expr shape b = .ok r) :
    r.length = shape.length ∧
      ∀ e ∈ r, (∃ i, e = Idx.int i) ∨ ∃ a b2 c, e = Idx.slice a b2 c := by
  unfold normalized_index_expression at h
  split at h
  · cases h
  next l0 hinit =>
    split at h
    · cases h
    next l2 hexp =>
      split at h
      · cases h
      next l3 hsp =>
        obtain ⟨hrl, hbad, hnone, hlen⟩ := finalChecks_ok h
        subst hrl
        have hlen2 : r.length = l2.length := scalarPass_ok_length l2 shape b r hsp
        have hge : shape.length ≤ l2.length := expand_append_ok_length hexp
        have hcnt : countEllipsis l2 = 0 := expandEllipsis_ok_count hexp
        refine ⟨by omega, ?_⟩
        intro e he
        rcases scalarPass_ok_mem l2 shape b r hsp e he with hm | ⟨w, hw⟩
        · cases e with
          | int i => exact .inl ⟨i, rfl⟩
          | slice a b2 c => exact .inr ⟨a, b2, c, rfl⟩
          | ellipsis => exact absurd hm ((countEllipsis_eq_zero l2).mp hcnt)
          | noneIdx => exact absurd he hnone
        · exact .inr ⟨some w, some (w + 1), none, hw⟩

/-- Witness for C9 at a concrete input: `[1]` against shape `(3, 4)`
normalizes to `(1, slice(None))`, whose length is `len(shape)`. -/
theorem C9_witness :
    ([Idx.int 1, Idx.slice none none none] : List Idx).length =
      ([3, 4] : List Nat).length :=
  (C9_normalized_result_invariant (.ofList [.int 1]) [3, 4] false
    [Idx.int 1, Idx.slice none none none] rfl).1

/-- C7: two or more `Ellipsis` entries raise a `ValueError`; a single
`Ellipsis` is replaced by exactly enough full slices to fill the missing
axes; `normalized_index_expression([1, Ellipsis], shape=(3,4,5))` gives
`(1, slice(None), slice(None))`; fewer indices than axes are padded with
full slices. -/
theorem C7_ellipsis_handling :
    (∀ (l : List Idx) (shape : List Nat) (b : Bool), 2 ≤ countEllipsis l →
       normalized_index_expression (.ofList l) shape b =
         .error (.valueError "cannot use more than one Ellipsis.")) ∧
    (∀ (pre post : List Idx) (ndim : Nat), countEllipsis pre = 0 →
       countEllipsis post = 0 → pre.length + post.length ≤ ndim →
       expandEllipsis (pre ++ Idx.ellipsis :: post) ndim =
         .ok (pre ++ List.replicate (ndim - (pre.length + post.length))
               (Idx.slice none none none) ++ post)) ∧
    normalized_index_expression (.ofList [.int 1, .ellipsis]) [3, 4, 5] false =
      .ok [.int 1, .slice none none none, .slice none none none] ∧
    normalized_index_expression (.ofList [.int 1, .int 2]) [3, 4, 5] false =
      .ok [.int 1, .int 2, .slice none none none] := by
  refine ⟨?_, ?_, rfl, rfl⟩
  · intro l shape b h2
    have hmem : Idx.ellipsis ∈ l := by
      by_contra hn
      have := (countEllipsis_eq_zero l).mpr hn
      omega
    unfold normalized_index_expression
    simp only [initialList]
    have happ : appendEllipsisIfNeeded l shape.length = l := by
      unfold appendEllipsisIfNeeded
      rw [if_neg]
      rintro ⟨h1, hnm⟩
      exact hnm hmem
    rw [happ]
    have hexp : expandEllipsis l shape.length =
        .error (.valueError "cannot use more than one Ellipsis.") := by
      unfold expandEllipsis
      rw [if_pos hmem, if_pos (by omega)]
    rw [hexp]
  · intro pre post ndim hpre hpost hle
    have hprem : Idx.ellipsis ∉ pre := (countEllipsis_eq_zero pre).mp hpre
    have hmem : Idx.ellipsis ∈ pre ++ Idx.ellipsis :: post := by simp
    have hcnt : countEllipsis (pre ++ Idx.ellipsis :: post) = 1 := by
      rw [countEllipsis_append]
      simp [countEllipsis, hpre, hpost]
    unfold expandEllipsis
    rw [if_pos hmem, if_neg (by omega)]
    have hlen : (pre ++ Idx.ellipsis :: post).length =
        pre.length + post.length + 1 := by
      simp [List.length_append]
      omega
    rw [hlen]
    have hx : (((ndim : Int) - ((pre.length + post.length + 1) : Nat) + 1)).toNat =
        ndim - (pre.length + post.length) := by omega
    rw [hx, splice_append pre post _ hprem]

/-- Witness for C7 at concrete inputs: two ellipses raise, and a single
ellipsis after `[0]` against two axes expands to one full slice. -/
theorem C7_witness :
    normalized_index_expression (.ofList [.ellipsis, .ellipsis]) [2] false =
      .error (.valueError "cannot use more than one Ellipsis.") ∧
    expandEllipsis ([Idx.int 0] ++ Idx.ellipsis :: []) 2 =
      .ok ([Idx.int 0] ++ List.replicate 1 (Idx.slice none none none) ++ []) :=
  ⟨C7_ellipsis_handling.1 [.ellipsis, .ellipsis] [2] false (by decide),
   C7_ellipsis_handling.2.1 [Idx.int 0] [] 2 (by decide) (by decide) (by decide)⟩

/-- C3 counterexample: the integer index `-5` on an axis of size `3` lies
outside the valid range `[-3, 3)`, yet `normalized_index_expression`
accepts it and returns it unchanged — the code only adds `n` once to a
negative index and then checks the upper bound, so indices below `-n`
escape the bounds check. -/
theorem C3_counterexample :
    normalized_index_expression (.ofList [.int (-5)]) [3] false =
      .ok [.int (-5)] ∧
    ¬ ((-3 : Int) ≤ -5 ∧ (-5 : Int) < 3) :=
  ⟨rfl, by omega⟩

/-- C3 amended: for an integer index `i` on a single axis of size `n`,
the code adds `n` to `i` once if `i < 0` and raises `IndexError` iff that
once-wrapped value `w` is `>= n` (so indices below `-n` are not caught);
otherwise with `int_to_slice=True` the entry becomes `slice(w, w+1)`, and
with `int_to_slice=False` the original `i` is returned unchanged. -/
theorem C3_amended_wraparound (i : Int) (n : Nat) (its : Bool) :
    normalized_index_expression (.ofList [.int i]) [n] its =
      (if (n : Int) ≤ (if i < 0 then i + (n : Int) else i) then
         .error (.indexError "Index is out of bounds for axis with this size.")
       else
         .ok [if its then
                Idx.slice (some (if i < 0 then i + (n : Int) else i))
                  (some ((if i < 0 then i + (n : Int) else i) + 1)) none
              else Idx.int i]) := by
  have key : normalized_index_expression (.ofList [.int i]) [n] its =
      (match scalarPass [Idx.int i] [n] its with
       | .error e => .error e
       | .ok l3 => finalChecks l3 [n]) := rfl
  rw [key, scalarPass_single_int]
  by_cases hb : (n : Int) ≤ (if i < 0 then i + (n : Int) else i)
  · rw [if_pos hb]
  · rw [if_neg hb]
    have hfin : finalChecks
        [if its then
           Idx.slice (some (if i < 0 then i + (n : Int) else i))
             (some ((if i < 0 then i + (n : Int) else i) + 1)) none
         else Idx.int i] [n] =
        .ok [if its then
               Idx.slice (some (if i < 0 then i + (n : Int) else i))
                 (some ((if i < 0 then i + (n : Int) else i) + 1)) none
             else Idx.int i] := by
      unfold finalChecks
      rw [if_neg, if_neg, if_neg]
      · simp
      · by_cases hits : its <;> simp [hits]
      · by_cases hits : its
        · simp only [hits, if_true, emptySliceBad, List.zip_cons_cons,
            List.zip_nil_right, List.any_cons, List.any_nil]
          simp [beq_iff_eq]
          omega
        · simp [hits, emptySliceBad]
    exact hfin

/-- C5 counterexample: `slice(3, 2)` on an axis of size `5` selects zero
elements, yet `normalized_index_expression` returns it unchanged — only
the patterns `start == stop` (both non-`None`) and `start == n` are
detected as empty. -/
theorem C5_counterexample :
    normalized_index_expression (.ofList [.slice (some 3) (some 2) none]) [5]
        false = .ok [.slice (some 3) (some 2) none] ∧
    sliceNumElems (some 3) (some 2) none 5 = 0 :=
  ⟨rfl, rfl⟩

/-- C5 amended: on success the normalized expression contains no `None`
entry and no slice with `start == stop` (both non-`None`) or
`start == n`; expressions exhibiting these two detected patterns raise a
`ValueError`, as does an expression containing `None` — but other
zero-element slices (such as `slice(3, 2)`, see the counterexample) are
not rejected. -/
theorem C5_empty_slice_and_newaxis :
    (∀ (expr : IdxExpr) (shape : List Nat) (b : Bool) (r : List Idx),
       normalized_index_expression expr shape b = .ok r →
       emptySliceBad r shape = false ∧ Idx.noneIdx ∉ r) ∧
    normalized_index_expression (.ofList [.slice (some 2) (some 2) none]) [5]
        false = .error (.valueError "Slices with empty axes not allowed.") ∧
    normalized_index_expression (.ofList [.slice (some 5) none none]) [5]
        false = .error (.valueError "Slices with empty axes not allowed.") ∧
    normalized_index_expression (.ofList [.noneIdx]) [5] false =
      .error (.valueError "creating new axes is not supported.") := by
  refine ⟨?_, rfl, rfl, rfl⟩
  intro expr shape b r h
  unfold normalized_index_expression at h
  split at h
  · cases h
  next l0 hinit =>
    split at h
    · cases h
    next l2 hexp =>
      split at h
      · cases h
      next l3 hsp =>
        obtain ⟨hrl, hbad, hnone, _⟩ := finalChecks_ok h
        subst hrl
        exact ⟨hbad, hnone⟩

/-- Witness for C5 at a concrete input: the successfully normalized
expression `(0,)` against shape `(5,)` exhibits neither detected-bad
pattern. -/
theorem C5_witness :
    emptySliceBad [Idx.int 0] [5] = false ∧ Idx.noneIdx ∉ [Idx.int 0] :=
  C5_empty_slice_and_newaxis.1 (.ofList [.int 0]) [5] false [.int 0] rfl

theorem broadcast_to_singleton (p : α) (k : Nat) :
    broadcast_to [p] k = .ok (List.replicate k p) := by
  unfold broadcast_to
  by_cases h : ([p] : List α).length = k
  · rw [if_pos h]
    simp only [List.length_singleton] at h
    subst h
    rfl
  · rw [if_neg h]

theorem broadcast_to_full (l : List α) (k : Nat) (h : l.length = k) :
    broadcast_to l k = .ok l := by
  unfold broadcast_to
  rw [if_pos h]

theorem broadcast_to_mismatch (l : List α) (k : Nat) (h1 : l.length ≠ k)
    (h2 : l.length ≠ 1) :
    broadcast_to l k =
      .error (.valueError "cannot broadcast array to the given shape") := by
  unfold broadcast_to
  rw [if_neg h1]
  match l with
  | [] => rfl
  | [a] => exact absurd rfl h2
  | a :: b :: t => rfl

/-- C8: `normalized_scalar_param_list` with target length `L >= 1` (and no
conversion): a bare scalar is replicated `L` times; a length-1 sequence
has its element replicated; a length-`L` sequence is returned unchanged;
any other sequence length raises a `ValueError`; in particular
`normalized_scalar_param_list(5, 3) == [5, 5, 5]`,
`normalized_scalar_param_list((1,2,3), 3) == [1, 2, 3]`, and
`normalized_scalar_param_list((1,2), 3)` raises. -/
theorem C8_scalar_param_list :
    (∀ (L : Int) (p : Option Int), 1 ≤ L →
       normalized_scalar_param_list (.scalar p) L none true =
         .ok (List.replicate L.toNat p)) ∧
    (∀ (L : Int) (p : Option Int), 1 ≤ L →
       normalized_scalar_param_list (.seq [p]) L none true =
         .ok (List.replicate L.toNat p)) ∧
    (∀ (L : Int) (l : List (Option Int)), 1 ≤ L → l.length = L.toNat →
       normalized_scalar_param_list (.seq l) L none true = .ok l) ∧
    (∀ (L : Int) (l : List (Option Int)), 1 ≤ L → l.length ≠ L.toNat →
       l.length ≠ 1 →
       normalized_scalar_param_list (.seq l) L none true =
         .error (.valueError "cannot broadcast array to the given shape")) ∧
    normalized_scalar_param_list (.scalar (some 5)) 3 none true =
      .ok [some 5, some 5, some 5] ∧
    normalized_scalar_param_list (.seq [some 1, some 2, some 3]) 3 none true =
      .ok [some 1, some 2, some 3] ∧
    normalized_scalar_param_list (.seq [some 1, some 2]) 3 none true =
      .error (.valueError "cannot broadcast array to the given shape") := by
  refine ⟨?_, ?_, ?_, ?_, rfl, rfl, rfl⟩
  · intro L p hL
    unfold normalized_scalar_param_list
    rw [if_neg (by omega), show ndmin1 (ScalarOrSeq.scalar p) = [p] from rfl,
      broadcast_to_singleton]
    show (if (List.replicate L.toNat p).length ≠ L.toNat then
            Except.error (PyErr.valueError "sequence param has wrong length")
          else Except.ok (List.replicate L.toNat p)) =
        .ok (List.replicate L.toNat p)
    rw [if_neg (by simp)]
  · intro L p hL
    unfold normalized_scalar_param_list
    rw [if_neg (by omega), show ndmin1 (ScalarOrSeq.seq [p]) = [p] from rfl,
      broadcast_to_singleton]
    show (if (List.replicate L.toNat p).length ≠ L.toNat then
            Except.error (PyErr.valueError "sequence param has wrong length")
          else Except.ok (List.replicate L.toNat p)) =
        .ok (List.replicate L.toNat p)
    rw [if_neg (by simp)]
  · intro L l hL hlen
    unfold normalized_scalar_param_list
    rw [if_neg (by omega), show ndmin1 (ScalarOrSeq.seq l) = l from rfl,
      broadcast_to_full l L.toNat hlen]
    show (if l.length ≠ L.toNat then
            Except.error (PyErr.valueError "sequence param has wrong length")
          else Except.ok l) = .ok l
    rw [if_neg (by omega)]
  · intro L l hL hne h1
    unfold normalized_scalar_param_list
    rw [if_neg (by omega), show ndmin1 (ScalarOrSeq.seq l) = l from rfl,
      broadcast_to_mismatch l L.toNat hne h1]

/-- Witness for C8 at a concrete input: the scalar `7` broadcast to
length 2. -/
theorem C8_witness :
    normalized_scalar_param_list (.scalar (some (7 : Int))) 2 none true =
      .ok [some 7, some 7] := by
  have h := C8_scalar_param_list.1 2 (some (7 : Int)) (by omega)
  exact h

/-- C1 (code bug): constructing `CudaFn(3, float32).Vector` with a handle
of native type `CudaVectorInt32` does not raise the validation error: the
`__init__` body RETURNS the `TypeError` object (a `return` where a
`raise` was intended) and never assigns `self._data`.  Likewise RL's
`CudaRN.Vector.__init__` performs no type validation at all: an arbitrary
object is passed straight to the native constructor. -/
theorem C1_vector_init_returns_not_raises :
    vector_init ⟨.cudaFnC, 3, .float32, .cudaVectorFloat32⟩
        ⟨.cudaVectorInt32, 3⟩ =
      .returned (some (.typeError "data must be a CudaFnVectorImpl instance"))
        ⟨⟨.cudaFnC, 3, .float32, .cudaVectorFloat32⟩, none⟩ ∧
    rl_vector_init .otherObj = .nativeConstructFromArgs :=
  ⟨rfl, rfl⟩

/-- C2 counterexample: RL's `CudaRN(0)` performs no Python-layer
validation: the non-positive dimension `0` is passed directly to the
native constructor `RLcpp.PyCuda.CudaRNImpl(0)` instead of raising a
validation error before any native call. -/
theorem C2_counterexample :
    cudaRN_init (.pyInt 0) = .nativeConstruct (.pyInt 0) := rfl

/-- C2 amended: ODL's `CudaFn.__init__` validates at the Python layer
(its body makes no native call): a non-`Integral` or non-positive `dim`
raises `TypeError`, an unsupported dtype raises `TypeError`, and a
positive integer `n` with supported dtype yields a space whose `dim`
equals `n`; RL's `CudaRN.__init__`, by contrast, always forwards its raw
argument to the native constructor with no validation. -/
theorem C2_space_construction_validation :
    (∀ (cls : SpaceClass) (t : NpDtype),
       cudaFn_init cls .nonIntegral t =
         .error (.typeError "dim has to be a positive integer")) ∧
    (∀ (cls : SpaceClass) (n : Int) (t : NpDtype), n < 1 →
       cudaFn_init cls (.pyInt n) t =
         .error (.typeError "dim has to be a positive integer")) ∧
    (∀ (cls : SpaceClass) (n : Int) (t : NpDtype), 1 ≤ n → dtypes t = none →
       cudaFn_init cls (.pyInt n) t =
         .error (.typeError "dtype must be a valid CudaFn.dtype")) ∧
    (∀ (cls : SpaceClass) (n : Int) (t : NpDtype) (impl : CudaVectorImpl),
       1 ≤ n → dtypes t = some impl →
       cudaFn_init cls (.pyInt n) t = .ok ⟨cls, n, t, impl⟩) ∧
    (∀ d : PyDim, cudaRN_init d = .nativeConstruct d) := by
  refine ⟨fun cls t => rfl, ?_, ?_, ?_, fun d => rfl⟩
  · intro cls n t h
    simp only [cudaFn_init]
    rw [if_pos h]
  · intro cls n t h1 h2
    simp only [cudaFn_init]
    rw [if_neg (by omega), h2]
  · intro cls n t impl h1 h2
    simp only [cudaFn_init]
    rw [if_neg (by omega), h2]

/-- Witness for C2 at concrete inputs: `CudaFn(0)` raises, `CudaFn(3,
float16)` raises, and `CudaFn(3, int32)` succeeds with dimension 3. -/
theorem C2_witness :
    cudaFn_init .cudaFnC (.pyInt 0) .float32 =
      .error (.typeError "dim has to be a positive integer") ∧
    cudaFn_init .cudaFnC (.pyInt 3) .float16 =
      .error (.typeError "dtype must be a valid CudaFn.dtype") ∧
    cudaFn_init .cudaFnC (.pyInt 3) .int32 =
      .ok ⟨.cudaFnC, 3, .int32, .cudaVectorInt32⟩ :=
  ⟨C2_space_construction_validation.2.1 .cudaFnC 0 .float32 (by omega),
   C2_space_construction_validation.2.2.1 .cudaFnC 3 .float16 (by omega) rfl,
   C2_space_construction_validation.2.2.2.1 .cudaFnC 3 .int32 .cudaVectorInt32
     (by omega) rfl⟩

/-- C4 (code bug): ODL's module-level `sum(inp)` does forward to the
native `sum` reduction on the vector's handle, but the RL `CudaRN.sum`
property's lambda invokes the native `abs` entry point (with a single
argument) — a copy-paste slip — so it does not forward to the sum
reduction. -/
theorem C4_sum_dispatch :
    ∀ hdl : Int,
      odl_sum hdl = ⟨.sumE, [hdl], []⟩ ∧
      cudaRN_sum hdl = ⟨.absE, [hdl], []⟩ ∧
      (cudaRN_sum hdl).entry ≠ NativeEntry.sumE :=
  fun _hdl => ⟨rfl, rfl, fun hc => NativeEntry.noConfusion hc⟩

/-- C6 counterexample: `CudaFn(3, float32)` and `CudaRn(3)` have the same
dimension and the same dtype, yet `equals` returns `False` because
`type(self) == type(other)` fails — equality is not determined by
dimension and dtype alone. -/
theorem C6_counterexample :
    cudaFn_init .cudaFnC (.pyInt 3) .float32 =
      .ok ⟨.cudaFnC, 3, .float32, .cudaVectorFloat32⟩ ∧
    cudaRn_init (.pyInt 3) = .ok ⟨.cudaRnC, 3, .float32, .cudaVectorFloat32⟩ ∧
    (CudaFn.mk .cudaFnC 3 .float32 .cudaVectorFloat32).dim =
      (CudaFn.mk .cudaRnC 3 .float32 .cudaVectorFloat32).dim ∧
    (CudaFn.mk .cudaFnC 3 .float32 .cudaVectorFloat32).dtype =
      (CudaFn.mk .cudaRnC 3 .float32 .cudaVectorFloat32).dtype ∧
    equals (CudaFn.mk .cudaFnC 3 .float32 .cudaVectorFloat32)
      (CudaFn.mk .cudaRnC 3 .float32 .cudaVectorFloat32) = false :=
  ⟨rfl, rfl, rfl, rfl, rfl⟩

/-- C6 amended: two spaces are equal if and only if they have the same
concrete class AND the same dimension AND the same dtype. -/
theorem C6_equals_iff (s o : CudaFn) :
    equals s o = true ↔ s.cls = o.cls ∧ s.dim = o.dim ∧ s.dtype = o.dtype := by
  simp [equals, and_assoc]

/-- C10: `CudaFn.element` with both `inp` and `data_ptr` raises
`TypeError` without constructing any vector; with neither, a fresh
uninitialized native buffer of size `self.dim` is allocated and wrapped,
and the resulting vector's `len` equals the space's `dim`. -/
theorem C10_element_dispatch :
    ∀ (s : CudaFn) (vals : List Int) (p : Int),
      element s (some vals) (some p) = .raisedTypeError ∧
      element s none none = .newVector ⟨s.vector_impl, s.dim⟩ ∧
      vector_len ⟨s, some ⟨s.vector_impl, s.dim⟩⟩ = s.dim :=
  fun _s _vals _p => ⟨rfl, rfl, rfl⟩

end ODL
